import Mathlib

/-!
Shallow embedding of `pcd_reader` (`src/lib.rs`): a loader for PCD files in
`binary_compressed` format.  Rust panics are modelled as `Except.error` values
of the inductive `PcdError`, one constructor per panic/failure site.  Machine
bytes are modelled as `Nat` (each stream element is a byte value), strings as
Lean `String`/`List Char` (the files are ASCII).  The external `lzf` crate is
not part of this repository; it is modelled from the spec (§4.2) as a
parameter constrained by `LzfContract`.
-/

/-- One constructor per distinct failure/panic site of `src/lib.rs`. -/
inductive PcdError where
  /-- Rust `File::open(filename).expect(...)` failure (not further modelled). -/
  | ioFailure
  /-- Rust `line[..line.len() - 1]` on the empty line produced by `read_line` at
  end of file: `0usize - 1` underflows / the byte slice is out of bounds. -/
  | eofSlicePanic
  /-- The `panic!("unknown header entry")` site. -/
  | unknownDirective
  /-- malformed directive payload: wrong word count for `POINTS`/`DATA`, or a
  non-integer token where `parse::<usize>()` was expected to succeed. -/
  | headerParse
  /-- The `panic!("currently only supporting binary_compressed format.")` site. -/
  | unsupportedFormat
  /-- Rust `lzf::decompress(..).expect(...)` failure. -/
  | decompressionFailure
  /-- The `panic!("pointcloud does not contain required fieldname")` site. -/
  | fieldNotFound
  /-- The `panic!("required fieldname is not a type of {}{}")` site. -/
  | typeMismatch
  /-- out-of-bounds index into `type_list`/`size_list` in `get_data_offset`. -/
  | indexPanic
  /-- out-of-bounds slice `decompressed_buffer[a..b]` in `read_data`. -/
  | slicePanic
  /-- length-mismatch panic inside `read_*_into` / `clone_from_slice`. -/
  | lengthPanic
deriving DecidableEq

/-- Rust `pub struct PointCloudHeader`. -/
structure PointCloudHeader where
  data_format : String
  num_points : Nat
  field_names : List String
  size_list : List Nat
  type_list : List String
deriving DecidableEq

/-- Rust `pub struct PointCloud`; `decompressed_buffer : Vec<u8>` as a byte list. -/
structure PointCloud where
  header : PointCloudHeader
  decompressed_buffer : List Nat
deriving DecidableEq

deriving instance DecidableEq for Except

/-- The mutable locals of `from_filename` before the `DATA` line is reached
(`num_points`, `field_names`, `size_list`, `type_list`, with their initial
values). -/
structure HeaderAcc where
  num_points : Nat := 0
  field_names : List String := []
  size_list : List Nat := []
  type_list : List String := []
deriving DecidableEq

/-- Rust `str::split(" ")`: split on every single space, keeping empty
fragments (leading, trailing, and between adjacent spaces). -/
def splitOnSpace : List Char → List (List Char)
  | [] => [[]]
  | c :: rest =>
    if c = ' ' then [] :: splitOnSpace rest
    else
      match splitOnSpace rest with
      | [] => [[c]]
      | w :: ws => (c :: w) :: ws

/-- Digit value of an ASCII digit character. -/
def digitVal (c : Char) : Option Nat :=
  if '0' ≤ c ∧ c ≤ '9' then some (c.toNat - '0'.toNat) else none

/-- Accumulating loop of the decimal parser. -/
def parseNatCore : List Char → Nat → Option Nat
  | [], acc => some acc
  | c :: r, acc =>
    match digitVal c with
    | some d => parseNatCore r (acc * 10 + d)
    | none => none

/-- Rust `str::parse::<usize>()` on ASCII input: an optional leading `+`
followed by one or more decimal digits.  (Rust's finite-width overflow
failure is not modelled; no claim involves values near `usize::MAX`.) -/
def parseNatL : List Char → Option Nat
  | [] => none
  | '+' :: r => if r.isEmpty then none else parseNatCore r 0
  | l => parseNatCore l 0

/-- Rust `line[..line.len() - 1]` for a nonempty line: drop the final character
(the newline `read_line` kept).  The empty-line case is handled at the call
site, where it is a panic. -/
def stripLine (raw : List Char) : List Char := raw.dropLast

/-- Rust `str::starts_with(kw)` on ASCII text. -/
def lineStarts (kw : String) (l : List Char) : Bool := kw.toList.isPrefixOf l

/-- The directive keywords, in the order the `if`/`else if` chain of
`from_filename` tests them. -/
def keywordList : List String :=
  ["#", "VERSION", "FIELDS", "SIZE", "TYPE", "COUNT", "WIDTH", "HEIGHT",
   "VIEWPOINT", "POINTS", "DATA"]

/-- What one iteration of the header loop does with the line it read: panic
(`err`), fall through to the next iteration with updated locals (`cont`), or
`break` out with the completed header (`done`, the `DATA` branch). -/
inductive StepRes where
  | err (e : PcdError)
  | cont (acc : HeaderAcc)
  | done (hdr : PointCloudHeader)
deriving DecidableEq

/-- The `FIELDS` branch: `words[1..]` become `field_names`. -/
def fieldsStep (acc : HeaderAcc) (line : List Char) : StepRes :=
  .cont { acc with field_names := ((splitOnSpace line).drop 1).map List.asString }

/-- The `SIZE` branch: `words[1..]` parsed as unsigned integers become
`size_list`; a token that does not parse is the `expect` panic. -/
def sizeStep (acc : HeaderAcc) (line : List Char) : StepRes :=
  match ((splitOnSpace line).drop 1).mapM parseNatL with
  | none => .err .headerParse
  | some sizes => .cont { acc with size_list := sizes }

/-- The `TYPE` branch: `words[1..]` become `type_list`. -/
def typeStep (acc : HeaderAcc) (line : List Char) : StepRes :=
  .cont { acc with type_list := ((splitOnSpace line).drop 1).map List.asString }

/-- The `POINTS` branch: exactly two words, the second parsed as an unsigned
integer into `num_points`; otherwise the corresponding panic. -/
def pointsStep (acc : HeaderAcc) (line : List Char) : StepRes :=
  if (splitOnSpace line).length ≠ 2 then .err .headerParse
  else
    match parseNatL ((splitOnSpace line).getD 1 []) with
    | none => .err .headerParse
    | some n => .cont { acc with num_points := n }

/-- The `DATA` branch: exactly two words whose second is
`binary_compressed`, which `break`s the loop with the finished header;
otherwise the corresponding panic. -/
def dataStep (acc : HeaderAcc) (line : List Char) : StepRes :=
  if (splitOnSpace line).length ≠ 2 then .err .headerParse
  else if ((splitOnSpace line).getD 1 []).asString = "binary_compressed" then
    .done ⟨"binary_compressed", acc.num_points, acc.field_names,
           acc.size_list, acc.type_list⟩
  else .err .unsupportedFormat

/-- The body of the header loop of `from_filename` (`src/lib.rs` lines
68–117) on one raw `read_line` result: strip the final character, then run
the `starts_with` chain.  The empty raw line (end of file) is the
`line[..line.len() - 1]` panic. -/
def parseLine (raw : String) (acc : HeaderAcc) : StepRes :=
  if raw.toList.isEmpty then .err .eofSlicePanic
  else if lineStarts "#" (stripLine raw.toList) then .cont acc
  else if lineStarts "VERSION" (stripLine raw.toList) then .cont acc
  else if lineStarts "FIELDS" (stripLine raw.toList) then
    fieldsStep acc (stripLine raw.toList)
  else if lineStarts "SIZE" (stripLine raw.toList) then
    sizeStep acc (stripLine raw.toList)
  else if lineStarts "TYPE" (stripLine raw.toList) then
    typeStep acc (stripLine raw.toList)
  else if lineStarts "COUNT" (stripLine raw.toList) then .cont acc
  else if lineStarts "WIDTH" (stripLine raw.toList) then .cont acc
  else if lineStarts "HEIGHT" (stripLine raw.toList) then .cont acc
  else if lineStarts "VIEWPOINT" (stripLine raw.toList) then .cont acc
  else if lineStarts "POINTS" (stripLine raw.toList) then
    pointsStep acc (stripLine raw.toList)
  else if lineStarts "DATA" (stripLine raw.toList) then
    dataStep acc (stripLine raw.toList)
  else .err .unknownDirective

/-- The header loop of `from_filename`.  The input is the sequence of
`read_line` results; an exhausted list models end of file, where `read_line`
yields the empty string and the next `parseLine` panics.  On `break` the
header and the unconsumed lines are returned. -/
def parseLoop : List String → HeaderAcc → Except PcdError (PointCloudHeader × List String)
  | [], _ => .error .eofSlicePanic
  | raw :: rest, acc =>
    match parseLine raw acc with
    | .err e => .error e
    | .cont acc' => parseLoop rest acc'
    | .done hdr => .ok (hdr, rest)

/-- Rust `Read::read_exact(&mut dst)` on a byte stream, as actually observed
with `BufReader<File>` (the default `read_exact` loop): the available prefix
of the stream is copied into the front of `dst`, the rest of `dst` keeps its
previous contents, and the returned flag says whether `dst` was filled
completely.  `from_filename` discards this flag (`let _ = ...`). -/
def readExact (dst s : List Nat) : List Nat × List Nat × Bool :=
  if dst.length ≤ s.length then (s.take dst.length, s.drop dst.length, true)
  else (s ++ dst.drop s.length, [], false)

/-- Rust `LittleEndian::read_u32` (and, elementwise, every `read_*_into`): combine
bytes little-endian, first byte least significant. -/
def leNat (chunk : List Nat) : Nat :=
  chunk.foldr (fun b acc => b + 256 * acc) 0

/-- Two's-complement reinterpretation of a `w`-byte little-endian value, as
`read_i16_into`/`read_i32_into`/`read_i64_into` produce. -/
def toSigned (w : Nat) (v : Nat) : Int :=
  if v < 2 ^ (8 * w - 1) then (v : Int) else (v : Int) - 2 ^ (8 * w)

/-- The binary stage of `from_filename` (`src/lib.rs` lines 119–127): the two
4-byte little-endian size prefixes and the compressed block, with every
`read_exact` failure ignored.  The same 4-byte buffer is reused for both size
reads, so a failed second read decodes leftover bytes of the first.  Returns
`(compressed_size, uncompressed_size, block)`. -/
def sizesOf (bytes : List Nat) : Nat × Nat × List Nat :=
  let r1 := readExact (List.replicate 4 0) bytes
  let compressed_size := leNat r1.1
  let r2 := readExact r1.1 r1.2.1
  let uncompressed_size := leNat r2.1
  let r3 := readExact (List.replicate compressed_size 0) r2.2.1
  (compressed_size, uncompressed_size, r3.1)

/-- Modelled from the spec: the external `lzf` crate's `decompress` is not
part of this repository; §4.2 constrains it only to fail or to produce
exactly the requested number of output bytes.  The loader is therefore
parameterised by the decompression function, and `LzfContract` is that
contract. -/
def LzfContract (lzf : List Nat → Nat → Except Unit (List Nat)) : Prop :=
  ∀ block n out, lzf block n = .ok out → out.length = n

/-- One concrete decompression function satisfying `LzfContract` (it never
fails and pads with zero bytes); used to instantiate loads on concrete
inputs. -/
def lzfZeros : List Nat → Nat → Except Unit (List Nat) :=
  fun _ n => .ok (List.replicate n 0)

/-- Rust `PointCloud::from_filename` after the file is open, presented as the
header lines (the successive `read_line` results) followed by the bytes of
the binary section, and parameterised by the decompression function.  The
model is faithful when the `DATA` line is the last element of `lines`, which
is where `BufReader` leaves the cursor. -/
def from_stream (lzf : List Nat → Nat → Except Unit (List Nat))
    (lines : List String) (bytes : List Nat) : Except PcdError PointCloud :=
  match parseLoop lines {} with
  | .error e => .error e
  | .ok (hdr, _) =>
    match lzf (sizesOf bytes).2.2 (sizesOf bytes).2.1 with
    | .ok out => .ok ⟨hdr, out⟩
    | .error _ => .error .decompressionFailure

/-- The loop of `PointCloud::get_data_offset` (`src/lib.rs` lines 142–155),
walking the three schema lists in lockstep (`types.head?`/`sizes.head?` at
step `i` is `type_list[i]`/`size_list[i]`, an out-of-bounds index being the
corresponding panic).  The `||` in the source is short-circuit, so on a name
match `type_list[i]` is indexed first and `size_list[i]` is only indexed when
the type tag agreed. -/
def offsetGo (fieldname type_string : String) (item_size : Nat) :
    List String → List String → List Nat → Nat → Except PcdError Nat
  | [], _, _, acc => .ok acc
  | fname :: names, types, sizes, acc =>
    if fname = fieldname then
      match types.head? with
      | none => .error .indexPanic
      | some t =>
        if t ≠ type_string then .error .typeMismatch
        else
          match sizes.head? with
          | none => .error .indexPanic
          | some s => if s ≠ item_size then .error .typeMismatch else .ok acc
    else
      match sizes.head? with
      | none => .error .indexPanic
      | some s => offsetGo fieldname type_string item_size names types.tail sizes.tail (acc + s)

/-- Rust `PointCloud::get_data_offset` (panics modelled as errors).  When the name
never matches, the loop falls through and returns the accumulated total, as
in the source. -/
def get_data_offset (pc : PointCloud) (fieldname type_string : String)
    (item_size : Nat) : Except PcdError Nat :=
  offsetGo fieldname type_string item_size pc.header.field_names
    pc.header.type_list pc.header.size_list 0

/-- The slice taken by `PointCloud::read_data` (`src/lib.rs` lines 159–176):
the `contains` pre-check, the offset lookup, and
`decompressed_buffer[offset*num_points .. (offset+item_size)*num_points]`,
whose out-of-bounds case is a panic. -/
def read_data_slice (pc : PointCloud) (fieldname type_string : String)
    (item_size : Nat) : Except PcdError (List Nat) :=
  if ¬ pc.header.field_names.contains fieldname then .error .fieldNotFound
  else
    match get_data_offset pc fieldname type_string item_size with
    | .error e => .error e
    | .ok off =>
      let lo := off * pc.header.num_points
      let hi := (off + item_size) * pc.header.num_points
      if lo ≤ hi ∧ hi ≤ pc.decompressed_buffer.length then
        .ok ((pc.decompressed_buffer.take hi).drop lo)
      else .error .slicePanic

/-- The `n` consecutive `w`-byte chunks of `l`: chunk `i` is `l[w*i .. w*i+w)`,
exactly how `read_u16_into` and friends walk their source slice. -/
def chunksOfN : Nat → Nat → List Nat → List (List Nat)
  | 0, _, _ => []
  | n + 1, w, l => l.take w :: chunksOfN n w (l.drop w)

/-- Rust `PointCloud::read_data` followed by the decode function: the byteorder
`read_*_into` functions panic unless the source length is exactly
`item_size * dst.len()` with `dst.len() = num_points`, then decode each
`item_size`-byte chunk into one element of the pre-sized output buffer. -/
def read_data_decoded {α : Type} (pc : PointCloud) (fieldname type_string : String)
    (item_size : Nat) (dec : List Nat → α) : Except PcdError (List α) :=
  match read_data_slice pc fieldname type_string item_size with
  | .error e => .error e
  | .ok src =>
    if src.length = item_size * pc.header.num_points then
      .ok ((chunksOfN pc.header.num_points item_size src).map dec)
    else .error .lengthPanic

/-- Rust `PointCloud::get_data_f32`.  Here `f32` values are represented by their 32-bit
little-endian bit patterns (`LittleEndian::read_f32_into` is exactly
`read_u32_into` followed by a bit-for-bit transmute; no float arithmetic is
performed anywhere in the library). -/
def get_data_f32 (pc : PointCloud) (fieldname : String) : Except PcdError (List Nat) :=
  read_data_decoded pc fieldname "F" 4 leNat

/-- Rust `PointCloud::get_data_f64` (64-bit bit patterns, see `get_data_f32`). -/
def get_data_f64 (pc : PointCloud) (fieldname : String) : Except PcdError (List Nat) :=
  read_data_decoded pc fieldname "F" 8 leNat

/-- Rust `PointCloud::get_data_u8`: `copy_u8_into` is `clone_from_slice`, a
verbatim byte copy that panics unless source and target lengths agree
(target length is `num_points`). -/
def get_data_u8 (pc : PointCloud) (fieldname : String) : Except PcdError (List Nat) :=
  match read_data_slice pc fieldname "U" 1 with
  | .error e => .error e
  | .ok src =>
    if src.length = pc.header.num_points then .ok src else .error .lengthPanic

/-- Rust `PointCloud::get_data_u16`. -/
def get_data_u16 (pc : PointCloud) (fieldname : String) : Except PcdError (List Nat) :=
  read_data_decoded pc fieldname "U" 2 leNat

/-- Rust `PointCloud::get_data_u32`. -/
def get_data_u32 (pc : PointCloud) (fieldname : String) : Except PcdError (List Nat) :=
  read_data_decoded pc fieldname "U" 4 leNat

/-- Rust `PointCloud::get_data_u64`. -/
def get_data_u64 (pc : PointCloud) (fieldname : String) : Except PcdError (List Nat) :=
  read_data_decoded pc fieldname "U" 8 leNat

/-- Rust `PointCloud::get_data_i16`. -/
def get_data_i16 (pc : PointCloud) (fieldname : String) : Except PcdError (List Int) :=
  read_data_decoded pc fieldname "I" 2 (fun c => toSigned 2 (leNat c))

/-- Rust `PointCloud::get_data_i32`. -/
def get_data_i32 (pc : PointCloud) (fieldname : String) : Except PcdError (List Int) :=
  read_data_decoded pc fieldname "I" 4 (fun c => toSigned 4 (leNat c))

/-- Rust `PointCloud::get_data_i64`. -/
def get_data_i64 (pc : PointCloud) (fieldname : String) : Except PcdError (List Int) :=
  read_data_decoded pc fieldname "I" 8 (fun c => toSigned 8 (leNat c))

/-- A concrete loaded point cloud (two points; an `F 4` field `x` followed by
a `U 1` field `y`, SoA payload of 4·2 + 1·2 = 10 bytes) used to instantiate
theorems on concrete inputs. -/
def pcXY : PointCloud :=
  ⟨⟨"binary_compressed", 2, ["x", "y"], [4, 1], ["F", "U"]⟩,
   [1, 0, 0, 0, 2, 0, 0, 0, 7, 9]⟩

/-! ## Helper lemmas -/

theorem chunksOfN_length (n w : Nat) (l : List Nat) :
    (chunksOfN n w l).length = n := by
  induction n generalizing l with
  | zero => rfl
  | succ n ih => simp [chunksOfN, ih]

theorem read_data_decoded_ok_length {α : Type} {pc : PointCloud} {f ts : String}
    {isz : Nat} {dec : List Nat → α} {v : List α}
    (h : read_data_decoded pc f ts isz dec = .ok v) :
    v.length = pc.header.num_points := by
  unfold read_data_decoded at h
  split at h
  · simp at h
  · split at h
    · simp only [Except.ok.injEq] at h
      subst h
      simp [chunksOfN_length]
    · simp at h

theorem get_data_u8_ok_length {pc : PointCloud} {f : String} {v : List Nat}
    (h : get_data_u8 pc f = .ok v) : v.length = pc.header.num_points := by
  unfold get_data_u8 at h
  split at h
  · simp at h
  · split at h
    · rename_i hlen
      simp only [Except.ok.injEq] at h
      subst h
      exact hlen
    · simp at h

theorem read_data_slice_fieldNotFound (pc : PointCloud) (f ts : String) (isz : Nat)
    (h : f ∉ pc.header.field_names) :
    read_data_slice pc f ts isz = .error .fieldNotFound := by
  simp [read_data_slice, List.contains, h]

theorem read_data_decoded_fieldNotFound {α : Type} (pc : PointCloud) (f ts : String)
    (isz : Nat) (dec : List Nat → α) (h : f ∉ pc.header.field_names) :
    read_data_decoded pc f ts isz dec = .error .fieldNotFound := by
  simp [read_data_decoded, read_data_slice_fieldNotFound pc f ts isz h]

/-! ## Claim theorems -/

/-- C2: for every loaded point cloud and every typed extraction (any of the
nine `get_data_*` operations) that returns successfully, the returned
sequence has length exactly `num_points`; no partial-length result is ever
returned. -/
theorem c2_typed_extraction_length (pc : PointCloud) (f : String) :
    (∀ v, get_data_f32 pc f = .ok v → v.length = pc.header.num_points) ∧
    (∀ v, get_data_f64 pc f = .ok v → v.length = pc.header.num_points) ∧
    (∀ v, get_data_u8 pc f = .ok v → v.length = pc.header.num_points) ∧
    (∀ v, get_data_u16 pc f = .ok v → v.length = pc.header.num_points) ∧
    (∀ v, get_data_u32 pc f = .ok v → v.length = pc.header.num_points) ∧
    (∀ v, get_data_u64 pc f = .ok v → v.length = pc.header.num_points) ∧
    (∀ v, get_data_i16 pc f = .ok v → v.length = pc.header.num_points) ∧
    (∀ v, get_data_i32 pc f = .ok v → v.length = pc.header.num_points) ∧
    (∀ v, get_data_i64 pc f = .ok v → v.length = pc.header.num_points) :=
  ⟨fun _ h => read_data_decoded_ok_length h,
   fun _ h => read_data_decoded_ok_length h,
   fun _ h => get_data_u8_ok_length h,
   fun _ h => read_data_decoded_ok_length h,
   fun _ h => read_data_decoded_ok_length h,
   fun _ h => read_data_decoded_ok_length h,
   fun _ h => read_data_decoded_ok_length h,
   fun _ h => read_data_decoded_ok_length h,
   fun _ h => read_data_decoded_ok_length h⟩

/-- Witness for C2: on the concrete cloud `pcXY`, `get_data_f32 "x"` succeeds
and the theorem yields the declared point count. -/
theorem c2_typed_extraction_length_witness :
    get_data_f32 pcXY "x" = .ok [1, 2] ∧
      ([1, 2] : List Nat).length = pcXY.header.num_points :=
  ⟨by decide, (c2_typed_extraction_length pcXY "x").1 [1, 2] (by decide)⟩

/-- C5: for every loaded point cloud, requesting any field name absent from
`field_names` yields the field-not-found failure (the panic at
`src/lib.rs:168`, modelled as `PcdError.fieldNotFound`), for every one of the
nine typed extraction operations. -/
theorem c5_absent_field_not_found (pc : PointCloud) (f : String)
    (h : f ∉ pc.header.field_names) :
    get_data_f32 pc f = .error .fieldNotFound ∧
    get_data_f64 pc f = .error .fieldNotFound ∧
    get_data_u8 pc f = .error .fieldNotFound ∧
    get_data_u16 pc f = .error .fieldNotFound ∧
    get_data_u32 pc f = .error .fieldNotFound ∧
    get_data_u64 pc f = .error .fieldNotFound ∧
    get_data_i16 pc f = .error .fieldNotFound ∧
    get_data_i32 pc f = .error .fieldNotFound ∧
    get_data_i64 pc f = .error .fieldNotFound := by
  refine ⟨?_, ?_, ?_, ?_, ?_, ?_, ?_, ?_, ?_⟩ <;>
    simp [get_data_f32, get_data_f64, get_data_u8, get_data_u16, get_data_u32,
      get_data_u64, get_data_i16, get_data_i32, get_data_i64,
      read_data_decoded_fieldNotFound _ _ _ _ _ h,
      read_data_slice_fieldNotFound _ _ _ _ h]

/-- Witness for C5: the name `w` is not a field of `pcXY`, and every getter
reports field-not-found on it. -/
theorem c5_absent_field_not_found_witness :
    get_data_u16 pcXY "w" = .error .fieldNotFound :=
  (c5_absent_field_not_found pcXY "w" (by decide)).2.2.2.1

theorem offsetGo_firstMatch (fieldname tag : String) (w : Nat) (ns₁ : List String) :
    ∀ (sz₁ : List Nat) (ty₁ : List String) (rest : List String)
      (szr : List Nat) (tyr : List String) (acc : Nat),
      fieldname ∉ ns₁ → sz₁.length = ns₁.length → ty₁.length = ns₁.length →
      offsetGo fieldname tag w (ns₁ ++ fieldname :: rest)
        (ty₁ ++ tag :: tyr) (sz₁ ++ w :: szr) acc = .ok (acc + sz₁.sum) := by
  induction ns₁ with
  | nil =>
    intro sz₁ ty₁ rest szr tyr acc _ hsz hty
    obtain rfl : sz₁ = [] := List.length_eq_zero.mp hsz
    obtain rfl : ty₁ = [] := List.length_eq_zero.mp hty
    simp [offsetGo]
  | cons a ns ih =>
    intro sz₁ ty₁ rest szr tyr acc hmem hsz hty
    cases sz₁ with
    | nil => simp at hsz
    | cons s sz' =>
      cases ty₁ with
      | nil => simp at hty
      | cons t ty' =>
        have ha : ¬ (a = fieldname) := fun h => hmem (by simp [h])
        have hmem' : fieldname ∉ ns := fun h => hmem (List.mem_cons_of_mem a h)
        simp only [List.cons_append, offsetGo, if_neg ha, List.head?_cons,
          List.tail_cons, List.append_eq]
        rw [ih sz' ty' rest szr tyr (acc + s) hmem' (by simpa using hsz)
          (by simpa using hty)]
        simp [Nat.add_assoc]

theorem offsetGo_firstMatch_mismatch (fieldname tag : String) (w : Nat)
    (ns₁ : List String) :
    ∀ (sz₁ : List Nat) (ty₁ : List String) (rest : List String)
      (szr : List Nat) (tyr : List String) (t : String) (s : Nat) (acc : Nat),
      fieldname ∉ ns₁ → sz₁.length = ns₁.length → ty₁.length = ns₁.length →
      ¬ (t = tag ∧ s = w) →
      offsetGo fieldname tag w (ns₁ ++ fieldname :: rest)
        (ty₁ ++ t :: tyr) (sz₁ ++ s :: szr) acc = .error .typeMismatch := by
  induction ns₁ with
  | nil =>
    intro sz₁ ty₁ rest szr tyr t s acc _ hsz hty hne
    obtain rfl : sz₁ = [] := List.length_eq_zero.mp hsz
    obtain rfl : ty₁ = [] := List.length_eq_zero.mp hty
    by_cases ht : t = tag
    · subst ht
      have hs : ¬ (s = w) := fun h => hne ⟨rfl, h⟩
      simp [offsetGo, hs]
    · simp [offsetGo, ht]
  | cons a ns ih =>
    intro sz₁ ty₁ rest szr tyr t s acc hmem hsz hty hne
    cases sz₁ with
    | nil => simp at hsz
    | cons s' sz' =>
      cases ty₁ with
      | nil => simp at hty
      | cons t' ty' =>
        have ha : ¬ (a = fieldname) := fun h => hmem (by simp [h])
        have hmem' : fieldname ∉ ns := fun h => hmem (List.mem_cons_of_mem a h)
        simp only [List.cons_append, offsetGo, if_neg ha, List.head?_cons,
          List.tail_cons, List.append_eq]
        exact ih sz' ty' rest szr tyr t s (acc + s') hmem' (by simpa using hsz)
          (by simpa using hty) hne

theorem contains_of_decomp (pc : PointCloud) (fieldname : String)
    (ns₁ rest : List String) (hns : pc.header.field_names = ns₁ ++ fieldname :: rest) :
    pc.header.field_names.contains fieldname = true := by
  rw [hns]
  simp [List.contains]

/-- C1: for every loaded point cloud and every extraction request whose field
name has a first match in `field_names` with matching type tag and byte
width, the returned column offset is the sum of the `size_list` entries of
all fields strictly before that first match (here `sz₁`, the sizes aligned
with the prefix `ns₁` of non-matching names — duplicates of the name may
occur freely in `rest` and do not matter), and the extracted elements are the
`dec`-decoded `w`-byte little-endian chunks of the payload slice
`[offset*num_points, (offset+w)*num_points)`. -/
theorem c1_offset_and_decode {α : Type} (pc : PointCloud) (fieldname tag : String)
    (w : Nat) (dec : List Nat → α) (ns₁ rest : List String) (sz₁ szr : List Nat)
    (ty₁ tyr : List String)
    (hns : pc.header.field_names = ns₁ ++ fieldname :: rest)
    (hdup : fieldname ∉ ns₁)
    (hsz : pc.header.size_list = sz₁ ++ w :: szr) (hszl : sz₁.length = ns₁.length)
    (hty : pc.header.type_list = ty₁ ++ tag :: tyr) (htyl : ty₁.length = ns₁.length)
    (hbound : (sz₁.sum + w) * pc.header.num_points ≤ pc.decompressed_buffer.length) :
    get_data_offset pc fieldname tag w = .ok sz₁.sum ∧
    read_data_decoded pc fieldname tag w dec =
      .ok ((chunksOfN pc.header.num_points w
        ((pc.decompressed_buffer.take ((sz₁.sum + w) * pc.header.num_points)).drop
          (sz₁.sum * pc.header.num_points))).map dec) := by
  have hoff : get_data_offset pc fieldname tag w = .ok sz₁.sum := by
    unfold get_data_offset
    rw [hns, hty, hsz]
    simpa using offsetGo_firstMatch fieldname tag w ns₁ sz₁ ty₁ rest szr tyr 0
      hdup hszl htyl
  refine ⟨hoff, ?_⟩
  have hcont := contains_of_decomp pc fieldname ns₁ rest hns
  have hmono : sz₁.sum * pc.header.num_points ≤ (sz₁.sum + w) * pc.header.num_points :=
    Nat.mul_le_mul_right _ (Nat.le_add_right _ _)
  have hslice : read_data_slice pc fieldname tag w =
      .ok ((pc.decompressed_buffer.take ((sz₁.sum + w) * pc.header.num_points)).drop
        (sz₁.sum * pc.header.num_points)) := by
    unfold read_data_slice
    rw [hcont, hoff]
    simp [hmono, hbound]
  have hlen : ((pc.decompressed_buffer.take ((sz₁.sum + w) * pc.header.num_points)).drop
      (sz₁.sum * pc.header.num_points)).length = w * pc.header.num_points := by
    simp only [List.length_drop, List.length_take]
    rw [Nat.min_eq_left hbound, Nat.add_mul]
    omega
  unfold read_data_decoded
  rw [hslice]
  simp [hlen]

/-- Witness for C1: on `pcXY`, field `y` (a `U 1` field preceded by the
4-byte field `x`) has offset 4 and decodes to the last two payload bytes. -/
theorem c1_offset_and_decode_witness :
    get_data_offset pcXY "y" "U" 1 = .ok 4 ∧
    read_data_decoded pcXY "y" "U" 1 leNat = .ok [7, 9] := by
  have h := c1_offset_and_decode pcXY "y" "U" 1 leNat ["x"] [] [4] [] ["F"] []
    (by decide) (by decide) (by decide) (by decide) (by decide) (by decide)
    (by decide)
  refine ⟨by simpa using h.1, ?_⟩
  rw [h.2]
  decide

theorem read_data_slice_ok_eq {pc : PointCloud} {f ts : String} {isz off : Nat}
    {src : List Nat}
    (hoff : get_data_offset pc f ts isz = .ok off)
    (hs : read_data_slice pc f ts isz = .ok src) :
    src = (pc.decompressed_buffer.take ((off + isz) * pc.header.num_points)).drop
      (off * pc.header.num_points) := by
  unfold read_data_slice at hs
  split at hs
  · simp at hs
  · simp only [hoff] at hs
    split at hs
    · simp only [Except.ok.injEq] at hs
      exact hs.symm
    · simp at hs

theorem get_data_u8_ok_slice {pc : PointCloud} {f : String} {v : List Nat}
    (h : get_data_u8 pc f = .ok v) :
    read_data_slice pc f "U" 1 = .ok v := by
  unfold get_data_u8 at h
  split at h
  · simp at h
  · rename_i src heq
    split at h
    · simp only [Except.ok.injEq] at h
      rw [heq, h]
    · simp at h

/-- C4 (evaluation at the failing input): field `y` of `pcXY` is present in
the schema but declared `("U", 1)`; requesting it through any getter of a
different `(type_tag, byte_width)` yields the type-mismatch failure and
never a value.  In the Rust source this failure is the panic at
`src/lib.rs:147` — a process abort, not a returned error value as the claim
asks — which the embedding models as `PcdError.typeMismatch`. -/
theorem c4_mismatch_eval :
    get_data_f32 pcXY "y" = .error .typeMismatch ∧
    get_data_f64 pcXY "y" = .error .typeMismatch ∧
    get_data_u16 pcXY "y" = .error .typeMismatch ∧
    get_data_u32 pcXY "y" = .error .typeMismatch ∧
    get_data_u64 pcXY "y" = .error .typeMismatch ∧
    get_data_i16 pcXY "y" = .error .typeMismatch ∧
    get_data_i32 pcXY "y" = .error .typeMismatch ∧
    get_data_i64 pcXY "y" = .error .typeMismatch := by decide

/-- C8: whenever the single-byte unsigned extraction succeeds, the returned
sequence is byte-for-byte the payload slice
`[offset*num_points, (offset+1)*num_points)` — `get_data_u8` returns the raw
slice verbatim (its `copy_u8_into` is `clone_from_slice`), with no endian
transformation. -/
theorem c8_u8_verbatim (pc : PointCloud) (f : String) (off : Nat) (v : List Nat)
    (hoff : get_data_offset pc f "U" 1 = .ok off)
    (h : get_data_u8 pc f = .ok v) :
    v = (pc.decompressed_buffer.take ((off + 1) * pc.header.num_points)).drop
      (off * pc.header.num_points) :=
  read_data_slice_ok_eq hoff (get_data_u8_ok_slice h)

/-- Witness for C8: on `pcXY`, field `y` sits at offset 4 and `get_data_u8`
returns exactly bytes 8 and 9 of the payload. -/
theorem c8_u8_verbatim_witness :
    ([7, 9] : List Nat) =
      (pcXY.decompressed_buffer.take ((4 + 1) * pcXY.header.num_points)).drop
        (4 * pcXY.header.num_points) :=
  c8_u8_verbatim pcXY "y" 4 [7, 9] (by decide) (by decide)

theorem head?_of_lineStarts {s : String} {l : List Char} (h : lineStarts s l = true)
    (hs : s.toList ≠ []) : l.head? = s.toList.head? := by
  unfold lineStarts at h
  cases hsl : s.toList with
  | nil => exact absurd hsl hs
  | cons c cs =>
    rw [hsl] at h
    cases l with
    | nil => simp [List.isPrefixOf] at h
    | cons a t =>
      simp [List.isPrefixOf] at h
      simp [h.1]

theorem lineStarts_DATA_false {l : List Char} {c : Char}
    (hhead : l.head? = some c) (hc : ¬ c = 'D') : lineStarts "DATA" l = false := by
  by_contra hcon
  rw [Bool.not_eq_false] at hcon
  have h1 := head?_of_lineStarts hcon (by decide)
  rw [hhead] at h1
  have h2 : ("DATA".toList.head? = some 'D') := by decide
  rw [h2] at h1
  exact hc (Option.some.inj h1)

theorem not_DATA_of_starts {kw : String} (c : Char) (hkw : kw.toList.head? = some c)
    (hc : ¬ c = 'D') {l : List Char} (h : lineStarts kw l = true) :
    lineStarts "DATA" l = false := by
  have hne : kw.toList ≠ [] := by
    intro he
    rw [he] at hkw
    simp at hkw
  have h1 := head?_of_lineStarts h hne
  rw [hkw] at h1
  exact lineStarts_DATA_false h1 hc

theorem dataStep_ne_cont (acc : HeaderAcc) (line : List Char) (acc' : HeaderAcc) :
    dataStep acc line ≠ .cont acc' := by
  unfold dataStep
  split
  · exact fun h => StepRes.noConfusion h
  · split
    · exact fun h => StepRes.noConfusion h
    · exact fun h => StepRes.noConfusion h

theorem parseLine_cont_not_DATA {raw : String} {acc acc' : HeaderAcc}
    (h : parseLine raw acc = .cont acc') :
    lineStarts "DATA" (stripLine raw.toList) = false := by
  unfold parseLine at h
  by_cases h0 : raw.toList.isEmpty
  · rw [if_pos h0] at h
    exact StepRes.noConfusion h
  rw [if_neg h0] at h
  by_cases h1 : lineStarts "#" (stripLine raw.toList)
  · exact not_DATA_of_starts '#' (by decide) (by decide) h1
  rw [if_neg h1] at h
  by_cases h2 : lineStarts "VERSION" (stripLine raw.toList)
  · exact not_DATA_of_starts 'V' (by decide) (by decide) h2
  rw [if_neg h2] at h
  by_cases h3 : lineStarts "FIELDS" (stripLine raw.toList)
  · exact not_DATA_of_starts 'F' (by decide) (by decide) h3
  rw [if_neg h3] at h
  by_cases h4 : lineStarts "SIZE" (stripLine raw.toList)
  · exact not_DATA_of_starts 'S' (by decide) (by decide) h4
  rw [if_neg h4] at h
  by_cases h5 : lineStarts "TYPE" (stripLine raw.toList)
  · exact not_DATA_of_starts 'T' (by decide) (by decide) h5
  rw [if_neg h5] at h
  by_cases h6 : lineStarts "COUNT" (stripLine raw.toList)
  · exact not_DATA_of_starts 'C' (by decide) (by decide) h6
  rw [if_neg h6] at h
  by_cases h7 : lineStarts "WIDTH" (stripLine raw.toList)
  · exact not_DATA_of_starts 'W' (by decide) (by decide) h7
  rw [if_neg h7] at h
  by_cases h8 : lineStarts "HEIGHT" (stripLine raw.toList)
  · exact not_DATA_of_starts 'H' (by decide) (by decide) h8
  rw [if_neg h8] at h
  by_cases h9 : lineStarts "VIEWPOINT" (stripLine raw.toList)
  · exact not_DATA_of_starts 'V' (by decide) (by decide) h9
  rw [if_neg h9] at h
  by_cases h10 : lineStarts "POINTS" (stripLine raw.toList)
  · exact not_DATA_of_starts 'P' (by decide) (by decide) h10
  rw [if_neg h10] at h
  by_cases h11 : lineStarts "DATA" (stripLine raw.toList)
  · rw [if_pos h11] at h
    exact absurd h (dataStep_ne_cont acc _ acc')
  · simpa using h11

theorem bool_ne_true {b : Bool} (h : b = false) : ¬ (b = true) := by
  rw [h]
  exact Bool.noConfusion

theorem lineStarts_of_strip {s : String} {l : List Char}
    (h : lineStarts s (stripLine l) = true) : lineStarts s l = true := by
  unfold lineStarts at h ⊢
  unfold stripLine at h
  rw [ List.isPrefixOf_iff_prefix] at h ⊢
  exact h.trans ( List.dropLast_prefix l)

theorem fieldsStep_ne_done (acc : HeaderAcc) (line : List Char) (hdr : PointCloudHeader) :
    fieldsStep acc line ≠ .done hdr := fun h => StepRes.noConfusion h

theorem typeStep_ne_done (acc : HeaderAcc) (line : List Char) (hdr : PointCloudHeader) :
    typeStep acc line ≠ .done hdr := fun h => StepRes.noConfusion h

theorem sizeStep_ne_done (acc : HeaderAcc) (line : List Char) (hdr : PointCloudHeader) :
    sizeStep acc line ≠ .done hdr := by
  unfold sizeStep
  split
  · exact fun h => StepRes.noConfusion h
  · exact fun h => StepRes.noConfusion h

theorem pointsStep_ne_done (acc : HeaderAcc) (line : List Char) (hdr : PointCloudHeader) :
    pointsStep acc line ≠ .done hdr := by
  unfold pointsStep
  split
  · exact fun h => StepRes.noConfusion h
  · split
    · exact fun h => StepRes.noConfusion h
    · exact fun h => StepRes.noConfusion h

theorem fieldsStep_num_points {acc : HeaderAcc} {line : List Char} {acc' : HeaderAcc}
    (h : fieldsStep acc line = .cont acc') : acc'.num_points = acc.num_points := by
  unfold fieldsStep at h
  injection h with h
  rw [← h]

theorem typeStep_num_points {acc : HeaderAcc} {line : List Char} {acc' : HeaderAcc}
    (h : typeStep acc line = .cont acc') : acc'.num_points = acc.num_points := by
  unfold typeStep at h
  injection h with h
  rw [← h]

theorem sizeStep_num_points {acc : HeaderAcc} {line : List Char} {acc' : HeaderAcc}
    (h : sizeStep acc line = .cont acc') : acc'.num_points = acc.num_points := by
  unfold sizeStep at h
  split at h
  · exact StepRes.noConfusion h
  · injection h with h
    rw [← h]

theorem dataStep_done_num_points {acc : HeaderAcc} {line : List Char}
    {hdr : PointCloudHeader} (h : dataStep acc line = .done hdr) :
    hdr.num_points = acc.num_points := by
  unfold dataStep at h
  split at h
  · exact StepRes.noConfusion h
  · split at h
    · injection h with h
      rw [← h]
    · exact StepRes.noConfusion h

theorem parseLine_done_props {raw : String} {acc : HeaderAcc} {hdr : PointCloudHeader}
    (h : parseLine raw acc = .done hdr) :
    lineStarts "DATA" (stripLine raw.toList) = true ∧
      hdr.num_points = acc.num_points := by
  unfold parseLine at h
  by_cases h0 : raw.toList.isEmpty
  · rw [if_pos h0] at h
    exact StepRes.noConfusion h
  rw [if_neg h0] at h
  by_cases h1 : lineStarts "#" (stripLine raw.toList)
  · rw [if_pos h1] at h
    exact StepRes.noConfusion h
  rw [if_neg h1] at h
  by_cases h2 : lineStarts "VERSION" (stripLine raw.toList)
  · rw [if_pos h2] at h
    exact StepRes.noConfusion h
  rw [if_neg h2] at h
  by_cases h3 : lineStarts "FIELDS" (stripLine raw.toList)
  · rw [if_pos h3] at h
    exact absurd h (fieldsStep_ne_done acc _ hdr)
  rw [if_neg h3] at h
  by_cases h4 : lineStarts "SIZE" (stripLine raw.toList)
  · rw [if_pos h4] at h
    exact absurd h (sizeStep_ne_done acc _ hdr)
  rw [if_neg h4] at h
  by_cases h5 : lineStarts "TYPE" (stripLine raw.toList)
  · rw [if_pos h5] at h
    exact absurd h (typeStep_ne_done acc _ hdr)
  rw [if_neg h5] at h
  by_cases h6 : lineStarts "COUNT" (stripLine raw.toList)
  · rw [if_pos h6] at h
    exact StepRes.noConfusion h
  rw [if_neg h6] at h
  by_cases h7 : lineStarts "WIDTH" (stripLine raw.toList)
  · rw [if_pos h7] at h
    exact StepRes.noConfusion h
  rw [if_neg h7] at h
  by_cases h8 : lineStarts "HEIGHT" (stripLine raw.toList)
  · rw [if_pos h8] at h
    exact StepRes.noConfusion h
  rw [if_neg h8] at h
  by_cases h9 : lineStarts "VIEWPOINT" (stripLine raw.toList)
  · rw [if_pos h9] at h
    exact StepRes.noConfusion h
  rw [if_neg h9] at h
  by_cases h10 : lineStarts "POINTS" (stripLine raw.toList)
  · rw [if_pos h10] at h
    exact absurd h (pointsStep_ne_done acc _ hdr)
  rw [if_neg h10] at h
  by_cases h11 : lineStarts "DATA" (stripLine raw.toList)
  · rw [if_pos h11] at h
    exact ⟨h11, dataStep_done_num_points h⟩
  · rw [if_neg h11] at h
    exact StepRes.noConfusion h

theorem parseLine_cont_num_points {raw : String} {acc acc' : HeaderAcc}
    (h : parseLine raw acc = .cont acc')
    (hnp : lineStarts "POINTS" (stripLine raw.toList) = false) :
    acc'.num_points = acc.num_points := by
  unfold parseLine at h
  by_cases h0 : raw.toList.isEmpty
  · rw [if_pos h0] at h
    exact StepRes.noConfusion h
  rw [if_neg h0] at h
  by_cases h1 : lineStarts "#" (stripLine raw.toList)
  · rw [if_pos h1] at h
    injection h with h
    rw [← h]
  rw [if_neg h1] at h
  by_cases h2 : lineStarts "VERSION" (stripLine raw.toList)
  · rw [if_pos h2] at h
    injection h with h
    rw [← h]
  rw [if_neg h2] at h
  by_cases h3 : lineStarts "FIELDS" (stripLine raw.toList)
  · rw [if_pos h3] at h
    exact fieldsStep_num_points h
  rw [if_neg h3] at h
  by_cases h4 : lineStarts "SIZE" (stripLine raw.toList)
  · rw [if_pos h4] at h
    exact sizeStep_num_points h
  rw [if_neg h4] at h
  by_cases h5 : lineStarts "TYPE" (stripLine raw.toList)
  · rw [if_pos h5] at h
    exact typeStep_num_points h
  rw [if_neg h5] at h
  by_cases h6 : lineStarts "COUNT" (stripLine raw.toList)
  · rw [if_pos h6] at h
    injection h with h
    rw [← h]
  rw [if_neg h6] at h
  by_cases h7 : lineStarts "WIDTH" (stripLine raw.toList)
  · rw [if_pos h7] at h
    injection h with h
    rw [← h]
  rw [if_neg h7] at h
  by_cases h8 : lineStarts "HEIGHT" (stripLine raw.toList)
  · rw [if_pos h8] at h
    injection h with h
    rw [← h]
  rw [if_neg h8] at h
  by_cases h9 : lineStarts "VIEWPOINT" (stripLine raw.toList)
  · rw [if_pos h9] at h
    injection h with h
    rw [← h]
  rw [if_neg h9] at h
  by_cases h10 : lineStarts "POINTS" (stripLine raw.toList)
  · rw [h10] at hnp
    exact Bool.noConfusion hnp
  rw [if_neg h10] at h
  by_cases h11 : lineStarts "DATA" (stripLine raw.toList)
  · rw [if_pos h11] at h
    exact absurd h (dataStep_ne_cont acc _ acc')
  · rw [if_neg h11] at h
    exact StepRes.noConfusion h

theorem parseLine_unknown (raw : String) (acc : HeaderAcc) (hne : ¬ raw.toList = [])
    (hkw : ∀ kw ∈ keywordList, lineStarts kw (stripLine raw.toList) = false) :
    parseLine raw acc = .err .unknownDirective := by
  have h0 : ¬ (raw.toList.isEmpty = true) := by simpa [List.isEmpty_iff] using hne
  unfold parseLine
  rw [if_neg h0,
    if_neg (bool_ne_true (hkw "#" (by decide))),
    if_neg (bool_ne_true (hkw "VERSION" (by decide))),
    if_neg (bool_ne_true (hkw "FIELDS" (by decide))),
    if_neg (bool_ne_true (hkw "SIZE" (by decide))),
    if_neg (bool_ne_true (hkw "TYPE" (by decide))),
    if_neg (bool_ne_true (hkw "COUNT" (by decide))),
    if_neg (bool_ne_true (hkw "WIDTH" (by decide))),
    if_neg (bool_ne_true (hkw "HEIGHT" (by decide))),
    if_neg (bool_ne_true (hkw "VIEWPOINT" (by decide))),
    if_neg (bool_ne_true (hkw "POINTS" (by decide))),
    if_neg (bool_ne_true (hkw "DATA" (by decide)))]

theorem data_decomp_cons (raw : String) {rest' rest : List String}
    (hnd : lineStarts "DATA" (stripLine raw.toList) = false)
    (h : ∃ pre l, rest' = pre ++ l :: rest ∧
      lineStarts "DATA" (stripLine l.toList) = true ∧
      ∀ l' ∈ pre, lineStarts "DATA" (stripLine l'.toList) = false) :
    ∃ pre l, raw :: rest' = pre ++ l :: rest ∧
      lineStarts "DATA" (stripLine l.toList) = true ∧
      ∀ l' ∈ pre, lineStarts "DATA" (stripLine l'.toList) = false := by
  obtain ⟨pre, l, h1, h2, h3⟩ := h
  refine ⟨raw :: pre, l, by rw [h1]; rfl, h2, ?_⟩
  intro l' hl'
  rcases List.mem_cons.mp hl' with rfl | hl'
  · exact hnd
  · exact h3 l' hl'

theorem parseLoop_ok_data : ∀ (lines : List String) (acc : HeaderAcc)
    (hdr : PointCloudHeader) (rest : List String),
    parseLoop lines acc = .ok (hdr, rest) →
    ∃ pre l, lines = pre ++ l :: rest ∧
      lineStarts "DATA" (stripLine l.toList) = true ∧
      ∀ l' ∈ pre, lineStarts "DATA" (stripLine l'.toList) = false := by
  intro lines
  induction lines with
  | nil =>
    intro acc hdr rest h
    exact Except.noConfusion h
  | cons raw rest' ih =>
    intro acc hdr rest h
    cases hp : parseLine raw acc with
    | err e =>
      rw [parseLoop, hp] at h
      exact Except.noConfusion h
    | cont acc' =>
      rw [parseLoop, hp] at h
      exact data_decomp_cons raw (parseLine_cont_not_DATA hp) (ih _ _ _ h)
    | done hdr' =>
      rw [parseLoop, hp] at h
      simp only [Except.ok.injEq, Prod.mk.injEq] at h
      refine ⟨[], raw, ?_, (parseLine_done_props hp).1, by simp⟩
      rw [h.2]
      rfl

theorem parseLoop_no_points : ∀ (lines : List String) (acc : HeaderAcc)
    (hdr : PointCloudHeader) (rest : List String),
    (∀ l ∈ lines, lineStarts "POINTS" l.toList = false) →
    parseLoop lines acc = .ok (hdr, rest) → hdr.num_points = acc.num_points := by
  intro lines
  induction lines with
  | nil =>
    intro acc hdr rest _ h
    exact Except.noConfusion h
  | cons raw rest' ih =>
    intro acc hdr rest hnp h
    have hnpr : lineStarts "POINTS" (stripLine raw.toList) = false := by
      by_contra hcon
      rw [Bool.not_eq_false] at hcon
      have hr := hnp raw (List.mem_cons_self _ _)
      rw [lineStarts_of_strip hcon] at hr
      exact Bool.noConfusion hr
    cases hp : parseLine raw acc with
    | err e =>
      rw [parseLoop, hp] at h
      exact Except.noConfusion h
    | cont acc' =>
      rw [parseLoop, hp] at h
      rw [ih _ _ _ (fun l hl => hnp l (List.mem_cons_of_mem _ hl)) h]
      exact parseLine_cont_num_points hp hnpr
    | done hdr' =>
      rw [parseLoop, hp] at h
      simp only [Except.ok.injEq, Prod.mk.injEq] at h
      rw [← h.1]
      exact parseLine_done_props hp |>.2

theorem lzfZeros_contract : LzfContract lzfZeros := by
  intro block n out h
  injection h with h
  rw [← h]
  exact List.length_replicate n 0

theorem from_stream_ok_header {lzf : List Nat → Nat → Except Unit (List Nat)}
    {lines : List String} {bytes : List Nat} {pc : PointCloud}
    (h : from_stream lzf lines bytes = .ok pc) :
    ∃ rest, parseLoop lines {} = .ok (pc.header, rest) := by
  unfold from_stream at h
  split at h
  · exact Except.noConfusion h
  · rename_i hdr rest heq
    split at h
    · simp only [Except.ok.injEq] at h
      refine ⟨rest, ?_⟩
      rw [heq, ← h]
    · exact Except.noConfusion h

theorem from_stream_ok_length {lzf : List Nat → Nat → Except Unit (List Nat)}
    (hc : LzfContract lzf) {lines : List String} {bytes : List Nat}
    {pc : PointCloud} (h : from_stream lzf lines bytes = .ok pc) :
    pc.decompressed_buffer.length = (sizesOf bytes).2.1 := by
  unfold from_stream at h
  split at h
  · exact Except.noConfusion h
  · split at h
    · rename_i out hlz
      simp only [Except.ok.injEq] at h
      rw [← h]
      exact hc _ _ _ hlz
    · exact Except.noConfusion h

theorem from_stream_error {lzf : List Nat → Nat → Except Unit (List Nat)}
    {lines : List String} {bytes : List Nat} {e : PcdError}
    (h : from_stream lzf lines bytes = .error e) :
    parseLoop lines {} = .error e ∨ e = .decompressionFailure := by
  unfold from_stream at h
  split at h
  · rename_i e' heq
    injection h with h
    rw [heq, h]
    exact Or.inl rfl
  · split at h
    · exact Except.noConfusion h
    · injection h with h
      rw [h]
      exact Or.inr rfl

/-- C3 counterexample: this file declares one `F 4` field with `POINTS 1`,
so the claimed invariant demands a 4-byte payload, but its size prefix
requests 3 bytes; with a contract-satisfying decompressor the load
nevertheless succeeds, with a 3-byte payload.  Nothing in `from_filename`
checks the payload length against the schema. -/
theorem c3_layout_counterexample :
    from_stream lzfZeros
      ["FIELDS x\n", "SIZE 4\n", "TYPE F\n", "POINTS 1\n", "DATA binary_compressed\n"]
      [1, 0, 0, 0, 3, 0, 0, 0, 0] =
      .ok ⟨⟨"binary_compressed", 1, ["x"], [4], ["F"]⟩, [0, 0, 0]⟩ ∧
    ¬ (([0, 0, 0] : List Nat).length = ([4] : List Nat).sum * 1) := by decide

/-- C3 amended: a successful load ties the payload length to the
little-endian `uncompressed_size` prefix (exactly, for any decompressor
satisfying the spec's §4.2 contract); nothing ties it to
`sum(size_list) * num_points`, so the claimed layout invariant holds only
for well-formed files and is not established by loading. -/
theorem c3_payload_eq_uncompressed_size
    (lzf : List Nat → Nat → Except Unit (List Nat)) (hc : LzfContract lzf)
    (lines : List String) (bytes : List Nat) (pc : PointCloud)
    (h : from_stream lzf lines bytes = .ok pc) :
    pc.decompressed_buffer.length = (sizesOf bytes).2.1 :=
  from_stream_ok_length hc h

/-- Witness for C3's amended theorem at a concrete load. -/
theorem c3_payload_eq_uncompressed_size_witness :
    (⟨⟨"binary_compressed", 1, ["x"], [4], ["F"]⟩,
      [0, 0, 0]⟩ : PointCloud).decompressed_buffer.length =
      (sizesOf [1, 0, 0, 0, 3, 0, 0, 0, 0]).2.1 :=
  c3_payload_eq_uncompressed_size lzfZeros lzfZeros_contract
    ["FIELDS x\n", "SIZE 4\n", "TYPE F\n", "POINTS 1\n", "DATA binary_compressed\n"]
    [1, 0, 0, 0, 3, 0, 0, 0, 0] _ (by decide)

/-- C6 counterexample: after the header only 4 bytes remain, so the second
4-byte size read and the block read both hit end of file — yet the load
SUCCEEDS: the `let _ = reader.read_exact(..)` results are discarded, the
reused size buffer still holds the first read's bytes (so
`uncompressed_size` decodes to 2), and a contract-satisfying decompressor is
then run on a zero-filled block.  The claim said any of the three reads
lacking bytes makes decompression fail. -/
theorem c6_short_read_counterexample :
    ([2, 0, 0, 0] : List Nat).length < 4 + 4 + (sizesOf [2, 0, 0, 0]).1 ∧
    from_stream lzfZeros
      ["FIELDS x\n", "SIZE 1\n", "TYPE U\n", "POINTS 2\n", "DATA binary_compressed\n"]
      [2, 0, 0, 0] =
      .ok ⟨⟨"binary_compressed", 2, ["x"], [1], ["U"]⟩, [0, 0]⟩ := by decide

/-- C6 amended: the three `read_exact` results are discarded
(`let _ = ...`), so insufficient bytes do not by themselves fail the load: a
load fails only when header parsing fails or the decompression algorithm
itself fails (surfaced as `decompressionFailure`); and on success the
payload length is exactly the `uncompressed_size` decoded from the (possibly
stale or zero-filled) size buffer, for any decompressor satisfying the
spec's §4.2 contract. -/
theorem c6_decompression_behavior
    (lzf : List Nat → Nat → Except Unit (List Nat)) (hc : LzfContract lzf)
    (lines : List String) (bytes : List Nat) :
    (∀ e, from_stream lzf lines bytes = .error e →
      parseLoop lines {} = .error e ∨ e = .decompressionFailure) ∧
    (∀ pc, from_stream lzf lines bytes = .ok pc →
      pc.decompressed_buffer.length = (sizesOf bytes).2.1) :=
  ⟨fun _ h => from_stream_error h, fun _ h => from_stream_ok_length hc h⟩

/-- Witness for C6's amended theorem at a concrete load. -/
theorem c6_decompression_behavior_witness :
    (⟨⟨"binary_compressed", 2, ["x"], [1], ["U"]⟩,
      [0, 0]⟩ : PointCloud).decompressed_buffer.length =
      (sizesOf [2, 0, 0, 0]).2.1 :=
  (c6_decompression_behavior lzfZeros lzfZeros_contract
    ["FIELDS x\n", "SIZE 1\n", "TYPE U\n", "POINTS 2\n", "DATA binary_compressed\n"]
    [2, 0, 0, 0]).2 _ (by decide)

/-- C7 counterexample: `POINTSX` is not a recognized directive keyword, so
by the claim this line's first token should make it a fatal
unknown-directive error; instead the line is classified by
`starts_with("POINTS")`, accepted as a `POINTS` directive, and even sets
`num_points` to 7. -/
theorem c7_prefix_counterexample :
    parseLoop ["POINTSX 7\n", "DATA binary_compressed\n"] {} =
      .ok (⟨"binary_compressed", 7, [], [], []⟩, []) := by decide

/-- C7 amended: a line is classified by testing, in the fixed order of
`keywordList`, whether its stripped content STARTS WITH each keyword string
(prefix match, not first-token equality); every nonempty line that starts
with none of the keywords is a fatal unknown-directive error, and a
successful scan consumes lines exactly up to and including the first line
whose content starts with `DATA`. -/
theorem c7_prefix_classification :
    (∀ (raw : String) (rest : List String) (acc : HeaderAcc),
      ¬ raw.toList = [] →
      (∀ kw ∈ keywordList, lineStarts kw (stripLine raw.toList) = false) →
      parseLoop (raw :: rest) acc = .error .unknownDirective) ∧
    (∀ (lines : List String) (acc : HeaderAcc) (hdr : PointCloudHeader)
        (rest : List String),
      parseLoop lines acc = .ok (hdr, rest) →
      ∃ pre l, lines = pre ++ l :: rest ∧
        lineStarts "DATA" (stripLine l.toList) = true ∧
        ∀ l' ∈ pre, lineStarts "DATA" (stripLine l'.toList) = false) := by
  constructor
  · intro raw rest acc hne hkw
    rw [parseLoop, parseLine_unknown raw acc hne hkw]
  · exact parseLoop_ok_data

/-- Witness for C7's amended theorem: a line starting with no keyword is a
fatal unknown-directive error. -/
theorem c7_prefix_classification_witness :
    parseLoop ["BOGUS 1\n"] {} = .error .unknownDirective :=
  c7_prefix_classification.1 "BOGUS 1\n" [] {} (by decide) (by decide)

/-- C9 amended: if no header line starts with `POINTS`, a successful load
has `num_points = 0` (the local's initial value), and every typed extraction
of a declared field AT ITS DECLARED type tag and byte width returns the
empty sequence rather than an error (a request at a different type/width
still fails with the type-mismatch panic, refuting the claim's "every
subsequent typed extraction"). -/
theorem c9_no_points_zero_and_empty
    (lzf : List Nat → Nat → Except Unit (List Nat)) (lines : List String)
    (bytes : List Nat) (pc : PointCloud)
    (hnp : ∀ l ∈ lines, lineStarts "POINTS" l.toList = false)
    (h : from_stream lzf lines bytes = .ok pc) :
    pc.header.num_points = 0 ∧
    (∀ {α : Type} (f tag : String) (w : Nat) (dec : List Nat → α)
      (ns₁ rest : List String) (sz₁ szr : List Nat) (ty₁ tyr : List String),
      pc.header.field_names = ns₁ ++ f :: rest → f ∉ ns₁ →
      pc.header.size_list = sz₁ ++ w :: szr → sz₁.length = ns₁.length →
      pc.header.type_list = ty₁ ++ tag :: tyr → ty₁.length = ns₁.length →
      read_data_decoded pc f tag w dec = .ok []) ∧
    (∀ (f : String) (ns₁ rest : List String) (sz₁ szr : List Nat)
      (ty₁ tyr : List String),
      pc.header.field_names = ns₁ ++ f :: rest → f ∉ ns₁ →
      pc.header.size_list = sz₁ ++ 1 :: szr → sz₁.length = ns₁.length →
      pc.header.type_list = ty₁ ++ "U" :: tyr → ty₁.length = ns₁.length →
      get_data_u8 pc f = .ok []) := by
  obtain ⟨rest0, hpl⟩ := from_stream_ok_header h
  have h0 : pc.header.num_points = 0 := by
    have := parseLoop_no_points lines {} pc.header rest0 hnp hpl
    simpa using this
  have hslice : ∀ (f tag : String) (w : Nat)
      (ns₁ rest : List String) (sz₁ szr : List Nat) (ty₁ tyr : List String),
      pc.header.field_names = ns₁ ++ f :: rest → f ∉ ns₁ →
      pc.header.size_list = sz₁ ++ w :: szr → sz₁.length = ns₁.length →
      pc.header.type_list = ty₁ ++ tag :: tyr → ty₁.length = ns₁.length →
      read_data_slice pc f tag w = .ok [] := by
    intro f tag w ns₁ rest sz₁ szr ty₁ tyr hns hdup hsz hszl hty htyl
    have hoff : get_data_offset pc f tag w = .ok sz₁.sum := by
      unfold get_data_offset
      rw [hns, hty, hsz]
      simpa using offsetGo_firstMatch f tag w ns₁ sz₁ ty₁ rest szr tyr 0 hdup hszl htyl
    have hcont := contains_of_decomp pc f ns₁ rest hns
    unfold read_data_slice
    rw [hcont, hoff]
    simp [h0]
  refine ⟨h0, ?_, ?_⟩
  · intro α f tag w dec ns₁ rest sz₁ szr ty₁ tyr hns hdup hsz hszl hty htyl
    unfold read_data_decoded
    rw [hslice f tag w ns₁ rest sz₁ szr ty₁ tyr hns hdup hsz hszl hty htyl]
    simp [h0, chunksOfN]
  · intro f ns₁ rest sz₁ szr ty₁ tyr hns hdup hsz hszl hty htyl
    unfold get_data_u8
    rw [hslice f "U" 1 ns₁ rest sz₁ szr ty₁ tyr hns hdup hsz hszl hty htyl]
    simp [h0]

/-- C9 counterexample: a header with no `POINTS` line loads with
`num_points = 0`, but the claim's "every subsequent typed extraction for a
declared field returns an empty sequence rather than an error" is false:
field `x` is declared `U 1`, and extracting it as `f32` is the type-mismatch
failure, not an empty sequence. -/
theorem c9_no_points_counterexample :
    from_stream lzfZeros
      ["FIELDS x\n", "SIZE 1\n", "TYPE U\n", "DATA binary_compressed\n"]
      [1, 0, 0, 0, 0, 0, 0, 0, 5] =
      .ok ⟨⟨"binary_compressed", 0, ["x"], [1], ["U"]⟩, []⟩ ∧
    get_data_f32 ⟨⟨"binary_compressed", 0, ["x"], [1], ["U"]⟩, []⟩ "x" =
      .error .typeMismatch := by decide

/-- Witness for C9's amended theorem at a concrete load. -/
theorem c9_no_points_witness :
    (⟨⟨"binary_compressed", 0, ["x"], [1], ["U"]⟩,
      []⟩ : PointCloud).header.num_points = 0 ∧
    get_data_u8 (⟨⟨"binary_compressed", 0, ["x"], [1], ["U"]⟩,
      []⟩ : PointCloud) "x" = .ok [] := by
  have h := c9_no_points_zero_and_empty lzfZeros
    ["FIELDS x\n", "SIZE 1\n", "TYPE U\n", "DATA binary_compressed\n"]
    [1, 0, 0, 0, 0, 0, 0, 0, 5]
    ⟨⟨"binary_compressed", 0, ["x"], [1], ["U"]⟩, []⟩
    (by decide) (by decide)
  exact ⟨h.1, h.2.2 "x" [] [] [] [] [] [] rfl (by decide) rfl rfl rfl rfl⟩

/-- C10: header scanning can only terminate by consuming a `DATA` directive
line: at end of file `read_line` yields the empty line and the unconditional
`line[..line.len()-1]` is the out-of-bounds panic (`eofSlicePanic`); and for
any line sequence in which no line starts with `DATA`, the scan never
returns a header, so no point cloud is ever constructed from such a file. -/
theorem c10_eof_no_data (lines : List String) :
    (∀ acc : HeaderAcc, parseLoop [] acc = .error .eofSlicePanic) ∧
    ((∀ l ∈ lines, lineStarts "DATA" l.toList = false) →
      (∀ (acc : HeaderAcc) (hdr : PointCloudHeader) (rest : List String),
        ¬ parseLoop lines acc = .ok (hdr, rest)) ∧
      (∀ (lzf : List Nat → Nat → Except Unit (List Nat)) (bytes : List Nat)
        (pc : PointCloud), ¬ from_stream lzf lines bytes = .ok pc)) := by
  refine ⟨fun _ => rfl, fun hnd => ?_⟩
  have hno : ∀ (acc : HeaderAcc) (hdr : PointCloudHeader) (rest : List String),
      ¬ parseLoop lines acc = .ok (hdr, rest) := by
    intro acc hdr rest hok
    obtain ⟨pre, l, h1, h2, h3⟩ := parseLoop_ok_data lines acc hdr rest hok
    have hmem : l ∈ lines := by
      rw [h1]
      exact List.mem_append_right _ (List.mem_cons_self _ _)
    have hfalse := hnd l hmem
    rw [lineStarts_of_strip h2] at hfalse
    exact Bool.noConfusion hfalse
  refine ⟨hno, ?_⟩
  intro lzf bytes pc hok
  obtain ⟨rest0, hpl⟩ := from_stream_ok_header hok
  exact hno {} pc.header rest0 hpl

/-- Witness for C10: a header consisting only of a `FIELDS` line (no `DATA`)
never yields a header. -/
theorem c10_eof_no_data_witness :
    ¬ parseLoop ["FIELDS x\n"] {} = .ok (⟨"binary_compressed", 0, [], [], []⟩, []) :=
  ((c10_eof_no_data ["FIELDS x\n"]).2 (by decide)).1 {} _ _
